import Mathlib

/-!
Verification development for the NexusConnect realtime layer.

The server keeps a process-resident registry of live websocket connections
(`clients : Map<string, WebSocket>`), broadcasts events to users and to
conversation participants, and drives the call lifecycle.  The definitions
below are a shallow embedding of `server/routes` (connection registry,
broadcaster, websocket message handlers, HTTP call/conversation handlers)
and of `server/storage` (`DatabaseStorage` operations), over list-based
tables.  Timestamps are naturals (milliseconds); database-generated ids are
drawn from a `nextId` counter.
-/

set_option linter.unusedVariables false

/-- A live websocket connection handle: the identity of the socket and
whether its `readyState` is `OPEN`. -/
structure Conn where
  connId : Nat
  isOpen : Bool
  deriving DecidableEq, Repr

/-- JS `Map.set` on the `clients` map: replace the binding for `k` in place
if present, otherwise append it. -/
def mapSet (m : List (String × Conn)) (k : String) (v : Conn) : List (String × Conn) :=
  match m with
  | [] => [(k, v)]
  | (k', v') :: rest => if k' = k then (k, v) :: rest else (k', v') :: mapSet rest k v

/-- JS `Map.get`: the first binding for `k`, if any. -/
def mapGet (m : List (String × Conn)) (k : String) : Option Conn :=
  (m.find? (fun e => e.1 = k)).map (fun e => e.2)

/-- JS `Map.delete`: remove the binding for `k`. -/
def mapDelete (m : List (String × Conn)) (k : String) : List (String × Conn) :=
  match m with
  | [] => []
  | (k', v') :: rest => if k' = k then rest else (k', v') :: mapDelete rest k

/-- `conversation_type` enum. -/
inductive ConvType
  | direct
  | group
  deriving DecidableEq, Repr

/-- `participant_role` enum. -/
inductive Role
  | owner
  | admin
  | member
  deriving DecidableEq, Repr

/-- `call_type` enum. -/
inductive CallKind
  | voice
  | video
  deriving DecidableEq, Repr

/-- `call_status` enum. -/
inductive CallStatus
  | initiated
  | ringing
  | active
  | ended
  | missed
  | declined
  deriving DecidableEq, Repr

/-- `user_status` enum. -/
inductive UserStatus
  | online
  | away
  | busy
  | offline
  deriving DecidableEq, Repr

/-- A row of the `users` table (fields relevant to the realtime layer). -/
structure UserRec where
  id : String
  username : String
  status : UserStatus
  lastSeenAt : Option Nat
  deriving DecidableEq, Repr

/-- A row of the `conversations` table.  `ctype` embeds the SQL column
`type` (a Lean keyword). -/
structure Conversation where
  id : Nat
  ctype : ConvType
  name : Option String
  description : Option String
  createdById : String
  lastActivityAt : Option Nat
  deriving DecidableEq, Repr

/-- A row of the `conversation_participants` table. -/
structure ConvParticipant where
  conversationId : Nat
  userId : String
  role : Role
  joinedAt : Nat
  isTyping : Bool
  typingUpdatedAt : Option Nat
  deriving DecidableEq, Repr

/-- A row of the `calls` table (`conversationId` is nullable in the schema). -/
structure Call where
  id : Nat
  conversationId : Option Nat
  initiatorId : String
  ctype : CallKind
  status : CallStatus
  startedAt : Option Nat
  endedAt : Option Nat
  duration : Option Int
  deriving DecidableEq, Repr

/-- A row of the `call_participants` table, media flags defaulting to
`false` on insert per the schema. -/
structure CallParticipant where
  callId : Nat
  userId : String
  joinedAt : Nat
  leftAt : Option Nat
  isMuted : Bool
  isVideoOff : Bool
  isScreenSharing : Bool
  deriving DecidableEq, Repr

/-- The database state seen by `DatabaseStorage`, as list-based tables.
`nextId` models the database's fresh-id generator. -/
structure DB where
  users : List UserRec
  conversations : List Conversation
  convParticipants : List ConvParticipant
  calls : List Call
  callParticipants : List CallParticipant
  nextId : Nat
  deriving DecidableEq, Repr

def emptyDB : DB := ⟨[], [], [], [], [], 0⟩

/-- `DatabaseStorage.getUser`. -/
def getUser (db : DB) (id : String) : Option UserRec :=
  db.users.find? (fun u => u.id = id)

/-- `DatabaseStorage.updateUserStatus`: set `status` and stamp `lastSeenAt`. -/
def updateUserStatus (db : DB) (id : String) (status : UserStatus) (now : Nat) : DB :=
  { db with users := db.users.map fun u =>
      if u.id = id then { u with status := status, lastSeenAt := some now } else u }

/-- The `conversation_participants` rows of one conversation. -/
def getParticipantRows (db : DB) (conversationId : Nat) : List ConvParticipant :=
  db.convParticipants.filter (fun p => p.conversationId = conversationId)

/-- `DatabaseStorage.getParticipants`: each participant row joined with its
user row; rows whose user is missing are dropped. -/
def getParticipants (db : DB) (conversationId : Nat) : List (ConvParticipant × UserRec) :=
  (getParticipantRows db conversationId).filterMap
    (fun p => (getUser db p.userId).map (fun u => (p, u)))

/-- `DatabaseStorage.getUserConversations`: every conversation the user
participates in, with participant details.  (The `lastActivityAt` ordering
of the source is immaterial to the verified properties and is not
reproduced.) -/
def getUserConversations (db : DB) (userId : String) :
    List (Conversation × List (ConvParticipant × UserRec)) :=
  let convIds := (db.convParticipants.filter (fun p => p.userId = userId)).map
    (fun p => p.conversationId)
  (db.conversations.filter (fun c => decide (c.id ∈ convIds))).map
    (fun c => (c, getParticipants db c.id))

/-- JS `Set.add` with insertion order preserved. -/
def setAdd (s : List String) (x : String) : List String :=
  if x ∈ s then s else s ++ [x]

/-- The contact set computed by the `user-online` and `close` handlers:
the union of the participants of all of the user's conversations,
excluding the user. -/
def contactIdsOf (db : DB) (userId : String) : List String :=
  (getUserConversations db userId).foldl
    (fun acc cv =>
      cv.2.foldl (fun acc2 p => if p.1.userId ≠ userId then setAdd acc2 p.1.userId else acc2) acc)
    []

/-- The outbound event catalog (payloads restricted to the fields the
verified properties inspect). -/
inductive OutEvent
  | userStatusChanged (userId : String) (status : UserStatus)
  | typingStatus (conversationId : Nat) (userId : String) (isTyping : Bool)
  | incomingCall (call : Call) (initiator : Option UserRec)
  | callAccepted (callId : Nat) (userId : String)
  | callDeclined (callId : Nat) (userId : String)
  | callEnded (callId : Nat) (endedBy : String) (duration : Int)
  | participantMediaChanged (callId : Nat) (userId : String)
      (isMuted isVideoOff isScreenSharing : Option Bool)
  | newConversation (conversationId : Nat)
  deriving DecidableEq, Repr

/-- `broadcastToUsers`: for each target id, deliver iff the registry holds a
connection for it whose `readyState` is `OPEN`. -/
def broadcastToUsers (clients : List (String × Conn)) (userIds : List String)
    (ev : OutEvent) : List (String × OutEvent) :=
  userIds.filterMap (fun uid =>
    match mapGet clients uid with
    | some c => if c.isOpen then some (uid, ev) else none
    | none => none)

/-- Observer: whether the registry holds an `OPEN` connection for the user
(the delivery condition of `broadcastToUsers`). -/
def connOpen (clients : List (String × Conn)) (x : String) : Bool :=
  match mapGet clients x with
  | some c => c.isOpen
  | none => false

/-- `broadcastToConversation`: resolve the participant set, drop the
excluded actor (if any), delegate to `broadcastToUsers`. -/
def broadcastToConversation (db : DB) (clients : List (String × Conn))
    (conversationId : Nat) (ev : OutEvent) (excludeUserId : Option String) :
    List (String × OutEvent) :=
  let userIds := ((getParticipants db conversationId).map (fun p => p.1.userId)).filter
    (fun id => decide (some id ≠ excludeUserId))
  broadcastToUsers clients userIds ev

/-- The server's shared mutable state: database plus the `clients` registry. -/
structure ServerState where
  db : DB
  clients : List (String × Conn)
  deriving DecidableEq, Repr

/-- `updateTypingStatus`: set `isTyping` and stamp `typingUpdatedAt` on the
matching participant row. -/
def updateTypingStatus (db : DB) (conversationId : Nat) (userId : String)
    (isTyping : Bool) (now : Nat) : DB :=
  { db with convParticipants := db.convParticipants.map fun p =>
      if p.conversationId = conversationId ∧ p.userId = userId
      then { p with isTyping := isTyping, typingUpdatedAt := some now } else p }

/-- `InsertCall` as built by the call-creation handlers. -/
structure InsertCall where
  conversationId : Option Nat
  initiatorId : String
  ctype : CallKind
  status : CallStatus
  deriving DecidableEq, Repr

/-- `DatabaseStorage.createCall`: insert a fresh `calls` row. -/
def createCall (db : DB) (data : InsertCall) : Call × DB :=
  let call : Call :=
    { id := db.nextId, conversationId := data.conversationId,
      initiatorId := data.initiatorId, ctype := data.ctype, status := data.status,
      startedAt := none, endedAt := none, duration := none }
  (call, { db with calls := db.calls ++ [call], nextId := db.nextId + 1 })

/-- `DatabaseStorage.getCall`. -/
def getCall (db : DB) (id : Nat) : Option Call :=
  db.calls.find? (fun c => c.id = id)

/-- A `calls` update as passed to `updateCall`; `none` models a field left
`undefined`, which the query builder omits from the `SET` clause. -/
structure CallUpdate where
  status : Option CallStatus
  startedAt : Option Nat
  endedAt : Option Nat
  duration : Option Int
  deriving DecidableEq, Repr

def applyCallUpdate (c : Call) (u : CallUpdate) : Call :=
  { c with
    status := u.status.getD c.status,
    startedAt := match u.startedAt with | some t => some t | none => c.startedAt,
    endedAt := match u.endedAt with | some t => some t | none => c.endedAt,
    duration := match u.duration with | some d => some d | none => c.duration }

/-- `DatabaseStorage.updateCall`: apply the update to the matching row. -/
def updateCall (db : DB) (id : Nat) (u : CallUpdate) : DB :=
  { db with calls := db.calls.map fun c => if c.id = id then applyCallUpdate c u else c }

/-- `DatabaseStorage.addCallParticipant`: insert a `call_participants` row
with the schema's defaults for the media flags. -/
def addCallParticipant (db : DB) (callId : Nat) (userId : String) (now : Nat) :
    CallParticipant × DB :=
  let p : CallParticipant :=
    { callId := callId, userId := userId, joinedAt := now, leftAt := none,
      isMuted := false, isVideoOff := false, isScreenSharing := false }
  (p, { db with callParticipants := db.callParticipants ++ [p] })

/-- A `call_participants` update; `none` models `undefined`, omitted from
the `SET` clause by the query builder. -/
structure CallPartUpdate where
  isMuted : Option Bool
  isVideoOff : Option Bool
  isScreenSharing : Option Bool
  deriving DecidableEq, Repr

def applyCallPartUpdate (p : CallParticipant) (u : CallPartUpdate) : CallParticipant :=
  { p with
    isMuted := u.isMuted.getD p.isMuted,
    isVideoOff := u.isVideoOff.getD p.isVideoOff,
    isScreenSharing := u.isScreenSharing.getD p.isScreenSharing }

/-- `DatabaseStorage.updateCallParticipant`. -/
def updateCallParticipant (db : DB) (callId : Nat) (userId : String)
    (u : CallPartUpdate) : DB :=
  { db with callParticipants := db.callParticipants.map fun p =>
      if p.callId = callId ∧ p.userId = userId then applyCallPartUpdate p u else p }

/-- `InsertConversation` as built by the conversation-creation handler. -/
structure InsertConversation where
  ctype : ConvType
  name : Option String
  description : Option String
  deriving DecidableEq, Repr

/-- `DatabaseStorage.addParticipant`. -/
def addParticipant (db : DB) (conversationId : Nat) (userId : String) (role : Role)
    (now : Nat) : DB :=
  { db with convParticipants := db.convParticipants ++
      [{ conversationId := conversationId, userId := userId, role := role,
         joinedAt := now, isTyping := false, typingUpdatedAt := none }] }

/-- `DatabaseStorage.createConversation`: insert the conversation, add the
creator (owner of a group, member of a direct conversation), then the other
participants, skipping the creator. -/
def createConversation (db : DB) (data : InsertConversation)
    (participantIds : List String) (creatorId : String) (now : Nat) :
    Conversation × DB :=
  let conv : Conversation :=
    { id := db.nextId, ctype := data.ctype, name := data.name,
      description := data.description, createdById := creatorId,
      lastActivityAt := some now }
  let db1 := { db with conversations := db.conversations ++ [conv], nextId := db.nextId + 1 }
  let db2 := addParticipant db1 conv.id creatorId
    (if data.ctype = ConvType.group then Role.owner else Role.member) now
  let db3 := participantIds.foldl
    (fun acc pid => if pid ≠ creatorId then addParticipant acc conv.id pid Role.member now else acc)
    db2
  (conv, db3)

/-- The conversation ids a user participates in (the `user1Convs` /
`user2Convs` queries of `findDirectConversation`). -/
def userConvIds (db : DB) (userId : String) : List Nat :=
  (db.convParticipants.filter (fun p => p.userId = userId)).map (fun p => p.conversationId)

/-- The per-candidate check inside `findDirectConversation`'s loop: the
conversation must exist with type `direct` and have exactly two participant
rows. -/
def directCheck (db : DB) (convId : Nat) : Option Conversation :=
  match db.conversations.find? (fun c => c.id = convId ∧ c.ctype = ConvType.direct) with
  | some conv =>
      if (db.convParticipants.filter (fun p => p.conversationId = convId)).length = 2
      then some conv else none
  | none => none

/-- `DatabaseStorage.findDirectConversation`: scan the conversations common
to both users, returning the first that passes `directCheck`. -/
def findDirectConversation (db : DB) (userId1 userId2 : String) : Option Conversation :=
  ((userConvIds db userId1).filter (fun id => decide (id ∈ userConvIds db userId2))).findSome?
    (directCheck db)

/-! ### Handlers

Each websocket-message handler takes the per-connection bound user id
(`none` until a `user-online` envelope arrived), the payload fields, the
current time, and the server state; it returns the new state and the list
of deliveries (recipient user id paired with the event) made by the
broadcaster. -/

/-- The `user-online` case of the message handler: bind the user id,
register the socket (replacing any prior entry), set presence to online,
and notify the contact set.  Returns the new per-connection bound id. -/
def handleUserOnline (ws : Conn) (payloadUserId : Option String) (now : Nat)
    (st : ServerState) : Option String × ServerState × List (String × OutEvent) :=
  match payloadUserId with
  | none => (none, st, [])
  | some uid =>
      let clients := mapSet st.clients uid ws
      let db := updateUserStatus st.db uid UserStatus.online now
      let contacts := contactIdsOf db uid
      (some uid, ⟨db, clients⟩,
        broadcastToUsers clients contacts (OutEvent.userStatusChanged uid UserStatus.online))

/-- The `typing` case: requires a bound user id and a conversation id;
update the typing flag and broadcast `typing-status` excluding the sender. -/
def handleTyping (uid : Option String) (conversationId : Option Nat) (isTyping : Bool)
    (now : Nat) (st : ServerState) : ServerState × List (String × OutEvent) :=
  match uid, conversationId with
  | some u, some cid =>
      let db := updateTypingStatus st.db cid u isTyping now
      (⟨db, st.clients⟩,
        broadcastToConversation db st.clients cid (OutEvent.typingStatus cid u isTyping) (some u))
  | _, _ => (st, [])

/-- The `POST /api/calls` handler: create the call (`initiated`), add the
initiator as participant, broadcast `incoming-call` excluding the
initiator; responds with the created call. -/
def postCalls (st : ServerState) (userId : String) (conversationId : Nat)
    (ctype : CallKind) (now : Nat) : Call × ServerState × List (String × OutEvent) :=
  let r := createCall st.db
    { conversationId := some conversationId, initiatorId := userId,
      ctype := ctype, status := CallStatus.initiated }
  let call := r.1
  let db2 := (addCallParticipant r.2 call.id userId now).2
  (call, ⟨db2, st.clients⟩,
    broadcastToConversation db2 st.clients conversationId
      (OutEvent.incomingCall call (getUser db2 userId)) (some userId))

/-- The `start-call` case: same persistence and broadcast as the HTTP
path, guarded on a bound user id and a conversation id in the payload. -/
def handleStartCall (uid : Option String) (conversationId : Option Nat)
    (ctype : CallKind) (now : Nat) (st : ServerState) :
    ServerState × List (String × OutEvent) :=
  match uid, conversationId with
  | some u, some convId =>
      let r := createCall st.db
        { conversationId := some convId, initiatorId := u,
          ctype := ctype, status := CallStatus.initiated }
      let call := r.1
      let db2 := (addCallParticipant r.2 call.id u now).2
      let initiator := getUser db2 u
      (⟨db2, st.clients⟩,
        broadcastToConversation db2 st.clients convId
          (OutEvent.incomingCall call initiator) (some u))
  | _, _ => (st, [])

/-- The `accept-call` case: if the call exists (its status is not
inspected), add the accepter as participant, set the status to `active`
and `startedAt` to now, and broadcast `call-accepted` with no exclusion. -/
def handleAcceptCall (uid : Option String) (callId : Option Nat) (now : Nat)
    (st : ServerState) : ServerState × List (String × OutEvent) :=
  match uid, callId with
  | some u, some cid =>
      match getCall st.db cid with
      | some call =>
          let db1 := (addCallParticipant st.db call.id u now).2
          let db2 := updateCall db1 call.id
            { status := some CallStatus.active, startedAt := some now,
              endedAt := none, duration := none }
          let deliveries :=
            match call.conversationId with
            | some convId =>
                broadcastToConversation db2 st.clients convId
                  (OutEvent.callAccepted call.id u) none
            | none => []
          (⟨db2, st.clients⟩, deliveries)
      | none => (st, [])
  | _, _ => (st, [])

/-- The duration computed by the `end-call` case:
`Math.floor((endedAt - startedAt) / 1000)`, or `0` when `startedAt` is
unset.  `Int.fdiv` is floor division, matching `Math.floor` on the signed
millisecond difference. -/
def callDuration (startedAt : Option Nat) (endedAt : Nat) : Int :=
  match startedAt with
  | some s => Int.fdiv ((endedAt : Int) - (s : Int)) 1000
  | none => 0

/-- The `end-call` case: if the call exists, stamp `endedAt`, compute the
duration, set the status to `ended`, and broadcast `call-ended` with the
duration and the ending user's id. -/
def handleEndCall (uid : Option String) (callId : Option Nat) (now : Nat)
    (st : ServerState) : ServerState × List (String × OutEvent) :=
  match uid, callId with
  | some u, some cid =>
      match getCall st.db cid with
      | some call =>
          let duration := callDuration call.startedAt now
          let db1 := updateCall st.db call.id
            { status := some CallStatus.ended, startedAt := none,
              endedAt := some now, duration := some duration }
          let deliveries :=
            match call.conversationId with
            | some convId =>
                broadcastToConversation db1 st.clients convId
                  (OutEvent.callEnded call.id u duration) none
            | none => []
          (⟨db1, st.clients⟩, deliveries)
      | none => (st, [])
  | _, _ => (st, [])

/-- Which of the three media-toggle message types arrived. -/
inductive ToggleType
  | mute
  | video
  | screenShare
  deriving DecidableEq, Repr

/-- The payload of a media-toggle message. -/
structure TogglePayload where
  callId : Option Nat
  isMuted : Option Bool
  isVideoOff : Option Bool
  isScreenSharing : Option Bool
  deriving DecidableEq, Repr

/-- The `toggle-mute` / `toggle-video` / `toggle-screen-share` case: build
an update carrying only the flag matching the message type (the others are
`undefined` and omitted), apply it to the actor's own participant row, then
broadcast `participant-media-changed` excluding the actor. -/
def handleToggleMedia (tt : ToggleType) (uid : Option String) (payload : TogglePayload)
    (st : ServerState) : ServerState × List (String × OutEvent) :=
  match uid, payload.callId with
  | some u, some cid =>
      let upd : CallPartUpdate :=
        { isMuted := if tt = ToggleType.mute then payload.isMuted else none,
          isVideoOff := if tt = ToggleType.video then payload.isVideoOff else none,
          isScreenSharing := if tt = ToggleType.screenShare then payload.isScreenSharing else none }
      let db := updateCallParticipant st.db cid u upd
      let deliveries :=
        match getCall db cid with
        | some call =>
            match call.conversationId with
            | some convId =>
                broadcastToConversation db st.clients convId
                  (OutEvent.participantMediaChanged cid u payload.isMuted payload.isVideoOff
                    payload.isScreenSharing) (some u)
            | none => []
        | none => []
      (⟨db, st.clients⟩, deliveries)
  | _, _ => (st, [])

/-- The transport-close handler: if a user id was bound on this connection,
delete its registry entry, set presence to offline, and notify the contact
set; otherwise do nothing. -/
def handleClose (uid : Option String) (now : Nat) (st : ServerState) :
    ServerState × List (String × OutEvent) :=
  match uid with
  | none => (st, [])
  | some u =>
      let clients := mapDelete st.clients u
      let db := updateUserStatus st.db u UserStatus.offline now
      let contacts := contactIdsOf db u
      (⟨db, clients⟩,
        broadcastToUsers clients contacts (OutEvent.userStatusChanged u UserStatus.offline))

/-- The `POST /api/conversations` handler: for a direct conversation with a
single other participant, return the existing direct conversation if one is
found; otherwise create the conversation and broadcast `new-conversation`
to the listed participants.  Returns the id of the conversation answered to
the caller. -/
def postConversations (st : ServerState) (userId : String) (ctype : ConvType)
    (name description : Option String) (participantIds : List String) (now : Nat) :
    Nat × ServerState × List (String × OutEvent) :=
  let createPath : Nat × ServerState × List (String × OutEvent) :=
    let r := createConversation st.db ⟨ctype, name, description⟩ participantIds userId now
    (r.1.id, ⟨r.2, st.clients⟩,
      broadcastToUsers st.clients participantIds (OutEvent.newConversation r.1.id))
  if ctype = ConvType.direct ∧ participantIds.length = 1 then
    match findDirectConversation st.db userId participantIds.headI with
    | some conv => (conv.id, st, [])
    | none => createPath
  else createPath

/-! ### Registry lemmas -/

theorem mapGet_cons (k' : String) (v' : Conn) (rest : List (String × Conn)) (k : String) :
    mapGet ((k', v') :: rest) k = if k' = k then some v' else mapGet rest k := by
  by_cases h : k' = k <;> simp [mapGet, List.find?, h]

theorem mapGet_eq_none_of_not_mem_keys {l : List (String × Conn)} {k : String}
    (h : k ∉ l.map Prod.fst) : mapGet l k = none := by
  induction l with
  | nil => rfl
  | cons e rest ih =>
      obtain ⟨k', v'⟩ := e
      simp only [List.map_cons, List.mem_cons, not_or] at h
      have h1 : k' ≠ k := fun hh => h.1 hh.symm
      rw [mapGet_cons, if_neg h1]
      exact ih h.2

theorem mapSet_cons_pos {k' : String} {v' : Conn} (rest : List (String × Conn))
    {k : String} (v : Conn) (h : k' = k) :
    mapSet ((k', v') :: rest) k v = (k, v) :: rest := by
  simp [mapSet, h]

theorem mapSet_cons_neg {k' : String} {v' : Conn} (rest : List (String × Conn))
    {k : String} (v : Conn) (h : ¬ k' = k) :
    mapSet ((k', v') :: rest) k v = (k', v') :: mapSet rest k v := by
  simp [mapSet, h]

theorem mapDelete_cons_pos {k' : String} {v' : Conn} (rest : List (String × Conn))
    {k : String} (h : k' = k) :
    mapDelete ((k', v') :: rest) k = rest := by
  simp [mapDelete, h]

theorem mapDelete_cons_neg {k' : String} {v' : Conn} (rest : List (String × Conn))
    {k : String} (h : ¬ k' = k) :
    mapDelete ((k', v') :: rest) k = (k', v') :: mapDelete rest k := by
  simp [mapDelete, h]

theorem mem_keys_mapSet {m : List (String × Conn)} {k x : String} {v : Conn}
    (hx : x ∈ (mapSet m k v).map Prod.fst) : x ∈ m.map Prod.fst ∨ x = k := by
  induction m with
  | nil =>
      simp only [mapSet, List.map_cons, List.map_nil, List.mem_singleton] at hx
      exact Or.inr hx
  | cons e rest ih =>
      obtain ⟨k', v'⟩ := e
      by_cases hk : k' = k
      · rw [mapSet_cons_pos rest v hk] at hx
        simp only [List.map_cons, List.mem_cons] at hx
        rcases hx with h | h
        · exact Or.inr h
        · exact Or.inl (by simp only [List.map_cons, List.mem_cons]; exact Or.inr h)
      · rw [mapSet_cons_neg rest v hk] at hx
        simp only [List.map_cons, List.mem_cons] at hx
        rcases hx with h | h
        · exact Or.inl (by simp only [List.map_cons, List.mem_cons]; exact Or.inl h)
        · rcases ih h with h2 | h2
          · exact Or.inl (by simp only [List.map_cons, List.mem_cons]; exact Or.inr h2)
          · exact Or.inr h2

theorem keys_nodup_mapSet {m : List (String × Conn)} (k : String) (v : Conn)
    (h : (m.map Prod.fst).Nodup) : ((mapSet m k v).map Prod.fst).Nodup := by
  induction m with
  | nil => simp [mapSet]
  | cons e rest ih =>
      obtain ⟨k', v'⟩ := e
      simp only [List.map_cons, List.nodup_cons] at h
      by_cases hk : k' = k
      · rw [mapSet_cons_pos rest v hk]
        simp only [List.map_cons, List.nodup_cons]
        exact ⟨hk ▸ h.1, h.2⟩
      · rw [mapSet_cons_neg rest v hk]
        simp only [List.map_cons, List.nodup_cons]
        refine ⟨fun hm => ?_, ih h.2⟩
        rcases mem_keys_mapSet hm with h2 | h2
        · exact h.1 h2
        · exact hk h2

theorem filter_keys_nil {l : List (String × Conn)} {k : String}
    (h : k ∉ l.map Prod.fst) : l.filter (fun e => decide (e.1 = k)) = [] := by
  induction l with
  | nil => rfl
  | cons e rest ih =>
      simp only [List.map_cons, List.mem_cons, not_or] at h
      have h1 : ¬ (e.1 = k) := fun hh => h.1 hh.symm
      simp [List.filter_cons, h1, ih h.2]

theorem mapGet_mapSet_self (m : List (String × Conn)) (k : String) (v : Conn) :
    mapGet (mapSet m k v) k = some v := by
  induction m with
  | nil => simp [mapSet, mapGet, List.find?]
  | cons e rest ih =>
      obtain ⟨k', v'⟩ := e
      by_cases hk : k' = k
      · rw [mapSet_cons_pos rest v hk, mapGet_cons, if_pos rfl]
      · rw [mapSet_cons_neg rest v hk, mapGet_cons, if_neg hk]
        exact ih

theorem filter_mapSet_self {m : List (String × Conn)} (k : String) (v : Conn)
    (h : (m.map Prod.fst).Nodup) :
    (mapSet m k v).filter (fun e => decide (e.1 = k)) = [(k, v)] := by
  induction m with
  | nil => simp [mapSet]
  | cons e rest ih =>
      obtain ⟨k', v'⟩ := e
      simp only [List.map_cons, List.nodup_cons] at h
      by_cases hk : k' = k
      · rw [mapSet_cons_pos rest v hk]
        simp [List.filter_cons, filter_keys_nil (hk ▸ h.1)]
      · rw [mapSet_cons_neg rest v hk]
        simp [List.filter_cons, hk, ih h.2]

theorem mapGet_mapDelete_self {m : List (String × Conn)} (k : String)
    (h : (m.map Prod.fst).Nodup) : mapGet (mapDelete m k) k = none := by
  induction m with
  | nil => rfl
  | cons e rest ih =>
      obtain ⟨k', v'⟩ := e
      simp only [List.map_cons, List.nodup_cons] at h
      by_cases hk : k' = k
      · rw [mapDelete_cons_pos rest hk]
        exact mapGet_eq_none_of_not_mem_keys (hk ▸ h.1)
      · rw [mapDelete_cons_neg rest hk, mapGet_cons, if_neg hk]
        exact ih h.2

theorem handleUserOnline_clients (c : Conn) (u : String) (t : Nat) (st : ServerState) :
    ((handleUserOnline c (some u) t st).2.1).clients = mapSet st.clients u c := rfl

theorem handleClose_clients (u : String) (t : Nat) (st : ServerState) :
    ((handleClose (some u) t st).1).clients = mapDelete st.clients u := rfl

/-- C1: per user id the registry holds at most one connection.  After
`user-online` registers `c1` and then `c2` for the same user `u`, the
registry lookup for `u` yields `c2`, and `(u, c2)` is the *only* entry for
`u` left in the registry — the first mapping was evicted, not
supplemented. -/
theorem register_twice_lookup_second (st : ServerState) (u : String) (c1 c2 : Conn)
    (t1 t2 : Nat) (h : (st.clients.map Prod.fst).Nodup) :
    mapGet ((handleUserOnline c2 (some u) t2
        ((handleUserOnline c1 (some u) t1 st).2.1)).2.1).clients u = some c2 ∧
    ((handleUserOnline c2 (some u) t2
        ((handleUserOnline c1 (some u) t1 st).2.1)).2.1).clients.filter
      (fun e => decide (e.1 = u)) = [(u, c2)] := by
  rw [handleUserOnline_clients, handleUserOnline_clients]
  exact ⟨mapGet_mapSet_self _ u c2,
    filter_mapSet_self u c2 (keys_nodup_mapSet u c1 h)⟩

theorem register_twice_lookup_second_witness :
    (((⟨emptyDB, []⟩ : ServerState).clients.map Prod.fst).Nodup) ∧
    mapGet ((handleUserOnline ⟨2, true⟩ (some "u") 1
        ((handleUserOnline ⟨1, true⟩ (some "u") 0 ⟨emptyDB, []⟩).2.1)).2.1).clients "u"
      = some ⟨2, true⟩ :=
  ⟨by simp, (register_twice_lookup_second ⟨emptyDB, []⟩ "u" ⟨1, true⟩ ⟨2, true⟩ 0 1
    (by simp)).1⟩

/-- C2 counterexample: the close handler does *not* compare the stored
handle with the closing connection.  User "u" registers connection 1, then
connection 2 (so the registry holds connection 2); when the stale close of
connection 1 — whose bound user id is "u" — is processed, the newer
mapping is evicted: the lookup afterwards returns `none`, not
connection 2 as the claim requires. -/
theorem stale_close_evicts_newer_connection :
    mapGet ((handleUserOnline ⟨2, true⟩ (some "u") 1
        ((handleUserOnline ⟨1, true⟩ (some "u") 0 ⟨emptyDB, []⟩).2.1)).2.1).clients "u"
      = some ⟨2, true⟩ ∧
    mapGet ((handleClose (some "u") 2
        ((handleUserOnline ⟨2, true⟩ (some "u") 1
          ((handleUserOnline ⟨1, true⟩ (some "u") 0 ⟨emptyDB, []⟩).2.1)).2.1)).1).clients "u"
      = none := by
  decide

/-- C2 amended: on connection close with a bound user id, the registry
mapping for that id is removed *unconditionally* — the code never checks
that the stored handle is the connection being closed, so a stale close
racing a fresher reconnect does evict the newer mapping. -/
theorem close_unregisters_unconditionally (st : ServerState) (u : String) (now : Nat)
    (h : (st.clients.map Prod.fst).Nodup) :
    mapGet ((handleClose (some u) now st).1).clients u = none := by
  rw [handleClose_clients]
  exact mapGet_mapDelete_self u h

theorem close_unregisters_unconditionally_witness :
    (((⟨emptyDB, [("u", ⟨2, true⟩)]⟩ : ServerState).clients.map Prod.fst).Nodup) ∧
    mapGet ((handleClose (some "u") 5 ⟨emptyDB, [("u", ⟨2, true⟩)]⟩).1).clients "u" = none :=
  ⟨by simp, close_unregisters_unconditionally ⟨emptyDB, [("u", ⟨2, true⟩)]⟩ "u" 5 (by simp)⟩

/-- C10: if the transport closes before any `user-online` message bound the
connection to a user id, the close handler is a complete no-op: the server
state (registry and database, hence presence) is unchanged and no event is
delivered to anyone. -/
theorem unidentified_close_noop (st : ServerState) (now : Nat) :
    handleClose none now st = (st, []) := rfl

/-! ### Call lifecycle lemmas -/

theorem applyCallUpdate_id (c : Call) (u : CallUpdate) : (applyCallUpdate c u).id = c.id := rfl

theorem find_update_calls (l : List Call) (cid : Nat) (u : CallUpdate) :
    ((l.map fun c => if c.id = cid then applyCallUpdate c u else c).find?
      fun c => decide (c.id = cid)) =
    ((l.find? fun c => decide (c.id = cid)).map fun c => applyCallUpdate c u) := by
  induction l with
  | nil => rfl
  | cons c rest ih =>
      simp only [List.map_cons]
      by_cases h : c.id = cid
      · rw [if_pos h]
        rw [List.find?_cons_of_pos (p := fun c : Call => decide (c.id = cid)) _
          (by show decide ((applyCallUpdate c u).id = cid) = true
              rw [applyCallUpdate_id]; exact decide_eq_true h)]
        rw [List.find?_cons_of_pos (p := fun c : Call => decide (c.id = cid)) _ (decide_eq_true h)]
        rfl
      · rw [if_neg h]
        rw [List.find?_cons_of_neg (p := fun c : Call => decide (c.id = cid)) _ (by simpa using h)]
        rw [List.find?_cons_of_neg (p := fun c : Call => decide (c.id = cid)) _ (by simpa using h)]
        exact ih

theorem getCall_updateCall (db : DB) (cid : Nat) (u : CallUpdate) :
    getCall (updateCall db cid u) cid = (getCall db cid).map (fun c => applyCallUpdate c u) := by
  unfold getCall updateCall
  exact find_update_calls db.calls cid u

theorem getCall_id {db : DB} {cid : Nat} {call : Call} (h : getCall db cid = some call) :
    call.id = cid := by
  unfold getCall at h
  exact of_decide_eq_true (List.find?_some (p := fun c : Call => decide (c.id = cid)) h)

theorem broadcastToConversation_none (db : DB) (clients : List (String × Conn))
    (cid : Nat) (ev : OutEvent) :
    broadcastToConversation db clients cid ev none =
      broadcastToUsers clients ((getParticipants db cid).map fun p => p.1.userId) ev := by
  unfold broadcastToConversation
  simp

theorem handleAcceptCall_eq (u : String) (cid now : Nat) (st : ServerState) (call : Call)
    (hc : getCall st.db cid = some call) :
    handleAcceptCall (some u) (some cid) now st =
      (⟨updateCall ((addCallParticipant st.db call.id u now).2) call.id
          { status := some CallStatus.active, startedAt := some now,
            endedAt := none, duration := none }, st.clients⟩,
        match call.conversationId with
        | some convId =>
            broadcastToConversation
              (updateCall ((addCallParticipant st.db call.id u now).2) call.id
                { status := some CallStatus.active, startedAt := some now,
                  endedAt := none, duration := none }) st.clients convId
              (OutEvent.callAccepted call.id u) none
        | none => []) := by
  show (match getCall st.db cid with
    | some call =>
        ((⟨updateCall ((addCallParticipant st.db call.id u now).2) call.id
            { status := some CallStatus.active, startedAt := some now,
              endedAt := none, duration := none }, st.clients⟩,
          match call.conversationId with
          | some convId =>
              broadcastToConversation
                (updateCall ((addCallParticipant st.db call.id u now).2) call.id
                  { status := some CallStatus.active, startedAt := some now,
                    endedAt := none, duration := none }) st.clients convId
                (OutEvent.callAccepted call.id u) none
          | none => []) : ServerState × List (String × OutEvent))
    | none => (st, [])) = _
  rw [hc]

theorem handleEndCall_eq (u : String) (cid now : Nat) (st : ServerState) (call : Call)
    (hc : getCall st.db cid = some call) :
    handleEndCall (some u) (some cid) now st =
      (⟨updateCall st.db call.id
          { status := some CallStatus.ended, startedAt := none,
            endedAt := some now, duration := some (callDuration call.startedAt now) },
        st.clients⟩,
        match call.conversationId with
        | some convId =>
            broadcastToConversation
              (updateCall st.db call.id
                { status := some CallStatus.ended, startedAt := none,
                  endedAt := some now, duration := some (callDuration call.startedAt now) })
              st.clients convId
              (OutEvent.callEnded call.id u (callDuration call.startedAt now)) none
        | none => []) := by
  show (match getCall st.db cid with
    | some call =>
        ((⟨updateCall st.db call.id
            { status := some CallStatus.ended, startedAt := none,
              endedAt := some now, duration := some (callDuration call.startedAt now) },
          st.clients⟩,
          match call.conversationId with
          | some convId =>
              broadcastToConversation
                (updateCall st.db call.id
                  { status := some CallStatus.ended, startedAt := none,
                    endedAt := some now, duration := some (callDuration call.startedAt now) })
                st.clients convId
                (OutEvent.callEnded call.id u (callDuration call.startedAt now)) none
          | none => []) : ServerState × List (String × OutEvent))
    | none => (st, [])) = _
  rw [hc]

theorem handleAcceptCall_eq2 (u : String) (cid now : Nat) (st : ServerState) (call : Call)
    (convId : Nat) (hc : getCall st.db cid = some call)
    (hcv : call.conversationId = some convId) :
    handleAcceptCall (some u) (some cid) now st =
      (⟨updateCall ((addCallParticipant st.db call.id u now).2) call.id
          { status := some CallStatus.active, startedAt := some now,
            endedAt := none, duration := none }, st.clients⟩,
        broadcastToConversation
          (updateCall ((addCallParticipant st.db call.id u now).2) call.id
            { status := some CallStatus.active, startedAt := some now,
              endedAt := none, duration := none }) st.clients convId
          (OutEvent.callAccepted call.id u) none) := by
  rw [handleAcceptCall_eq u cid now st call hc, hcv]

theorem handleEndCall_eq2 (u : String) (cid now : Nat) (st : ServerState) (call : Call)
    (convId : Nat) (hc : getCall st.db cid = some call)
    (hcv : call.conversationId = some convId) :
    handleEndCall (some u) (some cid) now st =
      (⟨updateCall st.db call.id
          { status := some CallStatus.ended, startedAt := none,
            endedAt := some now, duration := some (callDuration call.startedAt now) },
        st.clients⟩,
        broadcastToConversation
          (updateCall st.db call.id
            { status := some CallStatus.ended, startedAt := none,
              endedAt := some now, duration := some (callDuration call.startedAt now) })
          st.clients convId
          (OutEvent.callEnded call.id u (callDuration call.startedAt now)) none) := by
  rw [handleEndCall_eq u cid now st call hc, hcv]

/-! ### Broadcast delivery lemmas -/

theorem mem_broadcastToUsers {clients : List (String × Conn)} {ids : List String}
    {ev : OutEvent} {x : String} {e : OutEvent} :
    (x, e) ∈ broadcastToUsers clients ids ev ↔
      x ∈ ids ∧ e = ev ∧ connOpen clients x = true := by
  unfold broadcastToUsers
  rw [List.mem_filterMap]
  constructor
  · rintro ⟨a, ha, hfa⟩
    cases hg : mapGet clients a with
    | none => simp [hg] at hfa
    | some c =>
        cases hc : c.isOpen with
        | false => simp [hg, hc] at hfa
        | true =>
            simp only [hg, hc, if_true] at hfa
            obtain ⟨rfl, rfl⟩ : a = x ∧ ev = e := by
              constructor <;> simp_all
            exact ⟨ha, rfl, by simp [connOpen, hg, hc]⟩
  · rintro ⟨hx, rfl, hop⟩
    refine ⟨x, hx, ?_⟩
    unfold connOpen at hop
    cases hg : mapGet clients x with
    | none => rw [hg] at hop; cases hop
    | some c =>
        rw [hg] at hop
        have hop2 : c.isOpen = true := hop
        simp [hg, hop2]

theorem fst_mem_of_mem_broadcastToUsers {clients : List (String × Conn)}
    {ids : List String} {ev : OutEvent} {d : String × OutEvent}
    (h : d ∈ broadcastToUsers clients ids ev) : d.1 ∈ ids := by
  obtain ⟨x, e⟩ := d
  exact (mem_broadcastToUsers.mp h).1

theorem snd_eq_of_mem_broadcastToUsers {clients : List (String × Conn)}
    {ids : List String} {ev : OutEvent} {d : String × OutEvent}
    (h : d ∈ broadcastToUsers clients ids ev) : d.2 = ev := by
  obtain ⟨x, e⟩ := d
  exact (mem_broadcastToUsers.mp h).2.1

theorem broadcastToUsers_map_fst (clients : List (String × Conn)) (ids : List String)
    (ev : OutEvent) :
    (broadcastToUsers clients ids ev).map Prod.fst = ids.filter (connOpen clients) := by
  induction ids with
  | nil => rfl
  | cons a rest ih =>
      unfold broadcastToUsers at ih ⊢
      simp only [List.filterMap_cons]
      cases hg : mapGet clients a with
      | none => simp [List.filter_cons, connOpen, hg, ih]
      | some c =>
          cases hc : c.isOpen with
          | false => simp [List.filter_cons, connOpen, hg, hc, ih]
          | true => simp [List.filter_cons, connOpen, hg, hc, ih]

theorem mem_broadcastToConversation {db : DB} {clients : List (String × Conn)}
    {c : Nat} {ev : OutEvent} {excl : Option String} {x : String} {e : OutEvent} :
    (x, e) ∈ broadcastToConversation db clients c ev excl ↔
      x ∈ (getParticipants db c).map (fun p => p.1.userId) ∧ some x ≠ excl ∧ e = ev ∧
        connOpen clients x = true := by
  unfold broadcastToConversation
  rw [mem_broadcastToUsers, List.mem_filter]
  simp [and_assoc]

/-! ### C3, C4: accept-call -/

/-- C3 counterexample: `accept-call` on a call whose status is `ended` is
*not* a no-op.  Concretely, for a database holding the single call
`{id 0, status ended, startedAt 5}` and an accept from user "B" at time 10,
the call's status afterwards is `active` (not `ended`) and a participant
row for "B" has been appended — contradicting the claim that nothing
changes. -/
theorem accept_after_ended_changes_state :
    ((handleAcceptCall (some "B") (some 0) 10
      ⟨{ emptyDB with
          calls := [{ id := 0, conversationId := some 0, initiatorId := "A",
                      ctype := CallKind.voice, status := CallStatus.ended,
                      startedAt := some 5, endedAt := some 8, duration := some 0 }],
          nextId := 1 }, []⟩).1.db.calls.map Call.status = [CallStatus.active]) ∧
    ((handleAcceptCall (some "B") (some 0) 10
      ⟨{ emptyDB with
          calls := [{ id := 0, conversationId := some 0, initiatorId := "A",
                      ctype := CallKind.voice, status := CallStatus.ended,
                      startedAt := some 5, endedAt := some 8, duration := some 0 }],
          nextId := 1 }, []⟩).1.db.callParticipants.map CallParticipant.userId = ["B"]) := by
  decide

/-- C3 amended: call state transitions are *not* monotonic — the
`accept-call` handler checks only that the call exists, never its status.
Processing `accept-call` for an existing call whose status is `ended`
appends the accepting user as a `CallParticipant`, sets the status back to
`active`, restamps `startedAt` with the accept time, and issues the
`call-accepted` broadcast to the conversation. -/
theorem accept_call_on_ended_call (st : ServerState) (u : String) (cid now : Nat)
    (call : Call) (convId : Nat)
    (hc : getCall st.db cid = some call)
    (hst : call.status = CallStatus.ended)
    (hcv : call.conversationId = some convId) :
    (handleAcceptCall (some u) (some cid) now st).1.db.callParticipants
        = st.db.callParticipants ++
          [{ callId := cid, userId := u, joinedAt := now, leftAt := none,
             isMuted := false, isVideoOff := false, isScreenSharing := false }] ∧
    getCall (handleAcceptCall (some u) (some cid) now st).1.db cid
        = some { call with status := CallStatus.active, startedAt := some now } ∧
    (handleAcceptCall (some u) (some cid) now st).2
        = broadcastToConversation (handleAcceptCall (some u) (some cid) now st).1.db
            st.clients convId (OutEvent.callAccepted cid u) none := by
  have hid : call.id = cid := getCall_id hc
  have hc' : getCall st.db call.id = some call := by rw [hid]; exact hc
  rw [handleAcceptCall_eq2 u cid now st call convId hc hcv]
  refine ⟨?_, ?_, ?_⟩
  · rw [← hid]
    rfl
  · rw [← hid, getCall_updateCall]
    have h2 : getCall ((addCallParticipant st.db call.id u now).2) call.id
        = getCall st.db call.id := rfl
    rw [h2, hc']
    rfl
  · rw [hid]

theorem accept_call_on_ended_call_witness :
    (getCall { emptyDB with
        calls := [{ id := 0, conversationId := some 3, initiatorId := "A",
                    ctype := CallKind.voice, status := CallStatus.ended,
                    startedAt := some 5, endedAt := some 8, duration := some 0 }],
        nextId := 1 } 0
      = some { id := 0, conversationId := some 3, initiatorId := "A",
               ctype := CallKind.voice, status := CallStatus.ended,
               startedAt := some 5, endedAt := some 8, duration := some 0 }) ∧
    getCall (handleAcceptCall (some "B") (some 0) 10
      ⟨{ emptyDB with
          calls := [{ id := 0, conversationId := some 3, initiatorId := "A",
                      ctype := CallKind.voice, status := CallStatus.ended,
                      startedAt := some 5, endedAt := some 8, duration := some 0 }],
          nextId := 1 }, []⟩).1.db 0
      = some { id := 0, conversationId := some 3, initiatorId := "A",
               ctype := CallKind.voice, status := CallStatus.active,
               startedAt := some 10, endedAt := some 8, duration := some 0 } :=
  ⟨by decide,
    (accept_call_on_ended_call
      ⟨{ emptyDB with
          calls := [{ id := 0, conversationId := some 3, initiatorId := "A",
                      ctype := CallKind.voice, status := CallStatus.ended,
                      startedAt := some 5, endedAt := some 8, duration := some 0 }],
          nextId := 1 }, []⟩ "B" 0 10
      { id := 0, conversationId := some 3, initiatorId := "A",
        ctype := CallKind.voice, status := CallStatus.ended,
        startedAt := some 5, endedAt := some 8, duration := some 0 } 3
      (by decide) (by decide) rfl).2.1⟩

/-- C4 counterexample: `accept-call` does *not* stamp `startedAt` only when
unset — it overwrites it unconditionally.  For a call with
`startedAt = some 5`, accepting at time 10 leaves `startedAt = some 10`,
not the claimed unchanged `some 5`. -/
theorem accept_overwrites_set_startedAt :
    ((handleAcceptCall (some "B") (some 0) 10
      ⟨{ emptyDB with
          calls := [{ id := 0, conversationId := some 0, initiatorId := "A",
                      ctype := CallKind.voice, status := CallStatus.active,
                      startedAt := some 5, endedAt := none, duration := none }],
          nextId := 1 }, []⟩).1.db.calls.map Call.startedAt = [some 10]) ∧
    ¬ ((handleAcceptCall (some "B") (some 0) 10
      ⟨{ emptyDB with
          calls := [{ id := 0, conversationId := some 0, initiatorId := "A",
                      ctype := CallKind.voice, status := CallStatus.active,
                      startedAt := some 5, endedAt := none, duration := none }],
          nextId := 1 }, []⟩).1.db.calls.map Call.startedAt = [some 5]) := by
  decide

/-- C4 amended: accepting an existing call adds the accepting user as a
`CallParticipant`, sets the status to `active`, and stamps `startedAt`
with the accept time *unconditionally* (overwriting any previously set
value); the `call-accepted` broadcast goes to the conversation with no
exclusion — every connected participant, the accepter included, receives
it. -/
theorem accept_call_behavior (st : ServerState) (u : String) (cid now : Nat)
    (call : Call) (convId : Nat)
    (hc : getCall st.db cid = some call)
    (hcv : call.conversationId = some convId) :
    (handleAcceptCall (some u) (some cid) now st).1.db.callParticipants
        = st.db.callParticipants ++
          [{ callId := cid, userId := u, joinedAt := now, leftAt := none,
             isMuted := false, isVideoOff := false, isScreenSharing := false }] ∧
    getCall (handleAcceptCall (some u) (some cid) now st).1.db cid
        = some { call with status := CallStatus.active, startedAt := some now } ∧
    (∀ x, (x, OutEvent.callAccepted cid u) ∈ (handleAcceptCall (some u) (some cid) now st).2 ↔
        (x ∈ (getParticipants st.db convId).map (fun p => p.1.userId) ∧
          connOpen st.clients x = true)) := by
  have hid : call.id = cid := getCall_id hc
  have hc' : getCall st.db call.id = some call := by rw [hid]; exact hc
  rw [handleAcceptCall_eq2 u cid now st call convId hc hcv]
  refine ⟨?_, ?_, ?_⟩
  · rw [← hid]
    rfl
  · rw [← hid, getCall_updateCall]
    have h2 : getCall ((addCallParticipant st.db call.id u now).2) call.id
        = getCall st.db call.id := rfl
    rw [h2, hc']
    rfl
  · intro x
    rw [hid, mem_broadcastToConversation]
    have hpart : getParticipants
        (updateCall ((addCallParticipant st.db cid u now).2) cid
          { status := some CallStatus.active, startedAt := some now,
            endedAt := none, duration := none }) convId
        = getParticipants st.db convId := rfl
    rw [hpart]
    simp

theorem accept_call_behavior_witness :
    (getCall { emptyDB with
        calls := [{ id := 0, conversationId := some 3, initiatorId := "A",
                    ctype := CallKind.voice, status := CallStatus.initiated,
                    startedAt := some 5, endedAt := none, duration := none }],
        nextId := 1 } 0
      = some { id := 0, conversationId := some 3, initiatorId := "A",
               ctype := CallKind.voice, status := CallStatus.initiated,
               startedAt := some 5, endedAt := none, duration := none }) ∧
    getCall (handleAcceptCall (some "B") (some 0) 10
      ⟨{ emptyDB with
          calls := [{ id := 0, conversationId := some 3, initiatorId := "A",
                      ctype := CallKind.voice, status := CallStatus.initiated,
                      startedAt := some 5, endedAt := none, duration := none }],
          nextId := 1 }, []⟩).1.db 0
      = some { id := 0, conversationId := some 3, initiatorId := "A",
               ctype := CallKind.voice, status := CallStatus.active,
               startedAt := some 10, endedAt := none, duration := none } :=
  ⟨by decide,
    (accept_call_behavior
      ⟨{ emptyDB with
          calls := [{ id := 0, conversationId := some 3, initiatorId := "A",
                      ctype := CallKind.voice, status := CallStatus.initiated,
                      startedAt := some 5, endedAt := none, duration := none }],
          nextId := 1 }, []⟩ "B" 0 10
      { id := 0, conversationId := some 3, initiatorId := "A",
        ctype := CallKind.voice, status := CallStatus.initiated,
        startedAt := some 5, endedAt := none, duration := none } 3
      (by decide) rfl).2.1⟩

/-! ### C5: end-call -/

/-- C5: ending an existing call sets its status to `ended`, stamps
`endedAt`, and stores `duration = Math.floor((endedAt - startedAt)/1000)`:
the whole-second floor of the millisecond difference (characterised below
by the floor inequalities), and `0` whenever `startedAt` was never set
(the call never reached `active`).  The `call-ended` broadcast carries that
same duration and the id of the user who ended the call. -/
theorem end_call_spec (st : ServerState) (u : String) (cid now : Nat)
    (call : Call) (convId : Nat)
    (hc : getCall st.db cid = some call)
    (hcv : call.conversationId = some convId) :
    getCall (handleEndCall (some u) (some cid) now st).1.db cid
        = some { call with
                 status := CallStatus.ended,
                 endedAt := some now,
                 duration := some (callDuration call.startedAt now) } ∧
    (call.startedAt = none → callDuration call.startedAt now = 0) ∧
    (∀ s, call.startedAt = some s →
        1000 * callDuration call.startedAt now ≤ (now : Int) - (s : Int) ∧
        (now : Int) - (s : Int) < 1000 * (callDuration call.startedAt now + 1)) ∧
    (handleEndCall (some u) (some cid) now st).2
        = broadcastToConversation (handleEndCall (some u) (some cid) now st).1.db
            st.clients convId
            (OutEvent.callEnded cid u (callDuration call.startedAt now)) none := by
  have hid : call.id = cid := getCall_id hc
  have hc' : getCall st.db call.id = some call := by rw [hid]; exact hc
  rw [handleEndCall_eq2 u cid now st call convId hc hcv]
  refine ⟨?_, ?_, ?_, ?_⟩
  · rw [← hid, getCall_updateCall, hc']
    rfl
  · intro h
    rw [h]
    rfl
  · intro s hs
    rw [hs]
    have hd : callDuration (some s) now = Int.fdiv ((now : Int) - (s : Int)) 1000 := rfl
    rw [hd, Int.fdiv_eq_ediv _ (by decide)]
    omega
  · rw [hid]

theorem end_call_spec_witness :
    (getCall { emptyDB with
        calls := [{ id := 0, conversationId := some 3, initiatorId := "A",
                    ctype := CallKind.video, status := CallStatus.active,
                    startedAt := some 5000, endedAt := none, duration := none }],
        nextId := 1 } 0
      = some { id := 0, conversationId := some 3, initiatorId := "A",
               ctype := CallKind.video, status := CallStatus.active,
               startedAt := some 5000, endedAt := none, duration := none }) ∧
    getCall (handleEndCall (some "A") (some 0) 35123
      ⟨{ emptyDB with
          calls := [{ id := 0, conversationId := some 3, initiatorId := "A",
                      ctype := CallKind.video, status := CallStatus.active,
                      startedAt := some 5000, endedAt := none, duration := none }],
          nextId := 1 }, []⟩).1.db 0
      = some { id := 0, conversationId := some 3, initiatorId := "A",
               ctype := CallKind.video, status := CallStatus.ended,
               startedAt := some 5000, endedAt := some 35123,
               duration := some (callDuration (some 5000) 35123) } :=
  ⟨by decide,
    (end_call_spec
      ⟨{ emptyDB with
          calls := [{ id := 0, conversationId := some 3, initiatorId := "A",
                      ctype := CallKind.video, status := CallStatus.active,
                      startedAt := some 5000, endedAt := none, duration := none }],
          nextId := 1 }, []⟩ "A" 0 35123
      { id := 0, conversationId := some 3, initiatorId := "A",
        ctype := CallKind.video, status := CallStatus.active,
        startedAt := some 5000, endedAt := none, duration := none } 3
      (by decide) rfl).1⟩

/-! ### C6: the two start-call paths -/

theorem fst_ne_of_mem_broadcastToConversation {db : DB} {clients : List (String × Conn)}
    {c : Nat} {ev : OutEvent} {u : String} {d : String × OutEvent}
    (h : d ∈ broadcastToConversation db clients c ev (some u)) : d.1 ≠ u := by
  obtain ⟨x, e⟩ := d
  have h2 := (mem_broadcastToConversation.mp h).2.1
  simpa using h2

/-- C6: starting a call over `POST /api/calls` and over the `start-call`
websocket message produce the *same* result: identical resulting server
state (so identical persisted rows) and identical deliveries.  The
persisted call has status `initiated` with the caller as initiator, its
only `CallParticipant` row is the initiator, and the `incoming-call`
broadcast excludes the initiator. -/
theorem start_call_paths_agree (st : ServerState) (u : String) (convId : Nat)
    (k : CallKind) (now : Nat)
    (hfresh : ∀ p ∈ st.db.callParticipants, p.callId ≠ st.db.nextId) :
    handleStartCall (some u) (some convId) k now st
        = ((postCalls st u convId k now).2.1, (postCalls st u convId k now).2.2) ∧
    (postCalls st u convId k now).1.status = CallStatus.initiated ∧
    (postCalls st u convId k now).1.initiatorId = u ∧
    (((postCalls st u convId k now).2.1.db.callParticipants.filter
        (fun p => decide (p.callId = (postCalls st u convId k now).1.id))).map
      (fun p => p.userId)) = [u] ∧
    (∀ d ∈ (postCalls st u convId k now).2.2, d.1 ≠ u) := by
  refine ⟨rfl, rfl, rfl, ?_, ?_⟩
  · have hps : (postCalls st u convId k now).2.1.db.callParticipants
        = st.db.callParticipants ++
          [{ callId := st.db.nextId, userId := u, joinedAt := now, leftAt := none,
             isMuted := false, isVideoOff := false, isScreenSharing := false }] := rfl
    have hid : (postCalls st u convId k now).1.id = st.db.nextId := rfl
    rw [hps, hid, List.filter_append]
    rw [List.filter_eq_nil_iff.mpr (fun p hp => by simpa using hfresh p hp)]
    simp
  · intro d hd
    exact fst_ne_of_mem_broadcastToConversation hd

theorem start_call_paths_agree_witness :
    (∀ p ∈ (emptyDB : DB).callParticipants, p.callId ≠ (emptyDB : DB).nextId) ∧
    handleStartCall (some "A") (some 7) CallKind.voice 3 ⟨emptyDB, []⟩
        = ((postCalls ⟨emptyDB, []⟩ "A" 7 CallKind.voice 3).2.1,
           (postCalls ⟨emptyDB, []⟩ "A" 7 CallKind.voice 3).2.2) :=
  ⟨by decide, (start_call_paths_agree ⟨emptyDB, []⟩ "A" 7 CallKind.voice 3 (by decide)).1⟩

/-! ### C7: media toggle isolation -/

/-- C7: each media-toggle message type updates exactly one flag on the
acting user's own `CallParticipant` row and leaves the other two flags —
and every other row — unchanged, even when the payload carries values for
the other flags.  In particular after `toggle-mute{isMuted := bm}` the
actor's `isVideoOff` and `isScreenSharing` are exactly as before. -/
theorem media_toggle_updates_single_flag (st : ServerState) (u : String) (cid : Nat)
    (bm bv bs : Bool) (pm pv ps : Option Bool) :
    ((handleToggleMedia ToggleType.mute (some u) ⟨some cid, some bm, pv, ps⟩
        st).1.db.callParticipants
      = st.db.callParticipants.map fun p =>
          if p.callId = cid ∧ p.userId = u then { p with isMuted := bm } else p) ∧
    ((handleToggleMedia ToggleType.video (some u) ⟨some cid, pm, some bv, ps⟩
        st).1.db.callParticipants
      = st.db.callParticipants.map fun p =>
          if p.callId = cid ∧ p.userId = u then { p with isVideoOff := bv } else p) ∧
    ((handleToggleMedia ToggleType.screenShare (some u) ⟨some cid, pm, pv, some bs⟩
        st).1.db.callParticipants
      = st.db.callParticipants.map fun p =>
          if p.callId = cid ∧ p.userId = u then { p with isScreenSharing := bs } else p) :=
  ⟨rfl, rfl, rfl⟩

/-! ### C8: typing fan-out -/

theorem participants_map_userId (db : DB) (cid : Nat)
    (hfk : ∀ p ∈ getParticipantRows db cid, ∃ u ∈ db.users, u.id = p.userId) :
    ((getParticipants db cid).map fun q => q.1.userId)
      = ((getParticipantRows db cid).map fun p => p.userId) := by
  unfold getParticipants
  revert hfk
  generalize getParticipantRows db cid = rows
  intro h
  induction rows with
  | nil => rfl
  | cons p rest ih =>
      obtain ⟨u0, hu0, hid0⟩ := h p (List.mem_cons_self p rest)
      have hg : ∃ u, getUser db p.userId = some u := by
        cases hf : getUser db p.userId with
        | some u => exact ⟨u, rfl⟩
        | none =>
            unfold getUser at hf
            have h3 := List.find?_eq_none.mp hf u0 hu0
            simp [hid0] at h3
      obtain ⟨u, hu⟩ := hg
      rw [show List.filterMap (fun p => (getUser db p.userId).map fun u => (p, u)) (p :: rest)
          = (p, u) :: List.filterMap (fun p => (getUser db p.userId).map fun u => (p, u)) rest
        from by rw [List.filterMap_cons]; simp [hu]]
      simp only [List.map_cons]
      exact congrArg (List.cons p.userId) (ih fun q hq => h q (List.mem_cons_of_mem p hq))

theorem typing_update_filter_map_userId (l : List ConvParticipant) (c0 : Nat) (u0 : String)
    (b : Bool) (now cid : Nat) :
    (((l.map fun p => if p.conversationId = c0 ∧ p.userId = u0
          then { p with isTyping := b, typingUpdatedAt := some now } else p).filter
        fun p => decide (p.conversationId = cid)).map fun p => p.userId)
      = ((l.filter fun p => decide (p.conversationId = cid)).map fun p => p.userId) := by
  rw [List.filter_map, List.map_map]
  have h1 : ((fun p : ConvParticipant => decide (p.conversationId = cid)) ∘
      (fun p => if p.conversationId = c0 ∧ p.userId = u0
        then { p with isTyping := b, typingUpdatedAt := some now } else p))
      = fun p : ConvParticipant => decide (p.conversationId = cid) := by
    funext p
    by_cases hm : p.conversationId = c0 ∧ p.userId = u0 <;> simp [Function.comp, hm]
  have h2 : ((fun p : ConvParticipant => p.userId) ∘
      (fun p => if p.conversationId = c0 ∧ p.userId = u0
        then { p with isTyping := b, typingUpdatedAt := some now } else p))
      = fun p : ConvParticipant => p.userId := by
    funext p
    by_cases hm : p.conversationId = c0 ∧ p.userId = u0 <;> simp [Function.comp, hm]
  rw [h1, h2]

theorem typing_update_fk (db : DB) (c0 : Nat) (u0 : String) (b : Bool) (now cid : Nat)
    (hfk : ∀ p ∈ db.convParticipants, ∃ u ∈ db.users, u.id = p.userId) :
    ∀ p ∈ getParticipantRows (updateTypingStatus db c0 u0 b now) cid,
      ∃ u ∈ (updateTypingStatus db c0 u0 b now).users, u.id = p.userId := by
  intro p hp
  have husers : (updateTypingStatus db c0 u0 b now).users = db.users := rfl
  rw [husers]
  have hp2 : p ∈ (updateTypingStatus db c0 u0 b now).convParticipants :=
    List.mem_of_mem_filter hp
  have hmem : (updateTypingStatus db c0 u0 b now).convParticipants
      = db.convParticipants.map (fun q => if q.conversationId = c0 ∧ q.userId = u0
          then { q with isTyping := b, typingUpdatedAt := some now } else q) := rfl
  rw [hmem] at hp2
  obtain ⟨q, hq, rfl⟩ := List.mem_map.mp hp2
  have huid : (if q.conversationId = c0 ∧ q.userId = u0
      then { q with isTyping := b, typingUpdatedAt := some now } else q).userId = q.userId := by
    split <;> rfl
  rw [huid]
  exact hfk q hq

/-- C8: a `typing` message from identified user `A` for conversation `cid`
is delivered to exactly the currently-connected participants of `cid`
other than `A`: every delivery carries the `typing-status` event and goes
to some participant other than `A`; a user receives the event iff they are
a participant of `cid` distinct from `A` whose registry connection is
open; and no recipient receives it twice.  (`hfk` is the schema's foreign
key from participant rows to users; `hnd` says a user appears at most once
in a conversation's participant rows.) -/
theorem typing_broadcast_exact (st : ServerState) (A : String) (cid : Nat) (b : Bool)
    (now : Nat)
    (hfk : ∀ p ∈ st.db.convParticipants, ∃ u ∈ st.db.users, u.id = p.userId)
    (hnd : ((getParticipantRows st.db cid).map fun p => p.userId).Nodup) :
    (∀ d ∈ (handleTyping (some A) (some cid) b now st).2,
        d.2 = OutEvent.typingStatus cid A b ∧ d.1 ≠ A) ∧
    (∀ x, (x, OutEvent.typingStatus cid A b) ∈ (handleTyping (some A) (some cid) b now st).2
        ↔ (x ≠ A ∧ x ∈ ((getParticipantRows st.db cid).map fun p => p.userId) ∧
            connOpen st.clients x = true)) ∧
    (((handleTyping (some A) (some cid) b now st).2.map Prod.fst).Nodup) := by
  have hred : (handleTyping (some A) (some cid) b now st).2
      = broadcastToConversation (updateTypingStatus st.db cid A b now) st.clients cid
          (OutEvent.typingStatus cid A b) (some A) := rfl
  have hrows : getParticipantRows (updateTypingStatus st.db cid A b now) cid
      = (st.db.convParticipants.map (fun q => if q.conversationId = cid ∧ q.userId = A
          then { q with isTyping := b, typingUpdatedAt := some now } else q)).filter
        (fun p => decide (p.conversationId = cid)) := rfl
  have hpm : ((getParticipants (updateTypingStatus st.db cid A b now) cid).map
      fun q => q.1.userId) = ((getParticipantRows st.db cid).map fun p => p.userId) := by
    rw [participants_map_userId _ _ (typing_update_fk st.db cid A b now cid hfk)]
    rw [hrows]
    exact typing_update_filter_map_userId st.db.convParticipants cid A b now cid
  refine ⟨?_, ?_, ?_⟩
  · intro d hd
    rw [hred] at hd
    obtain ⟨x, e⟩ := d
    obtain ⟨h1, h2, h3, h4⟩ := mem_broadcastToConversation.mp hd
    exact ⟨h3, by simpa using h2⟩
  · intro x
    rw [hred, mem_broadcastToConversation, hpm]
    constructor
    · rintro ⟨h1, h2, h3, h4⟩
      exact ⟨by simpa using h2, h1, h4⟩
    · rintro ⟨h1, h2, h3⟩
      exact ⟨h2, by simpa using h1, rfl, h3⟩
  · rw [hred]
    unfold broadcastToConversation
    rw [broadcastToUsers_map_fst]
    apply List.Nodup.filter
    apply List.Nodup.filter
    rw [hpm]
    exact hnd

theorem typing_broadcast_exact_witness :
    (∀ p ∈ ({ emptyDB with
        users := [⟨"A", "a", UserStatus.online, none⟩, ⟨"B", "b", UserStatus.online, none⟩,
          ⟨"C", "c", UserStatus.online, none⟩],
        conversations := [⟨7, ConvType.group, none, none, "A", none⟩],
        convParticipants := [⟨7, "A", Role.owner, 0, false, none⟩,
          ⟨7, "B", Role.member, 0, false, none⟩, ⟨7, "C", Role.member, 0, false, none⟩],
        nextId := 8 } : DB).convParticipants,
        ∃ u ∈ ({ emptyDB with
        users := [⟨"A", "a", UserStatus.online, none⟩, ⟨"B", "b", UserStatus.online, none⟩,
          ⟨"C", "c", UserStatus.online, none⟩],
        conversations := [⟨7, ConvType.group, none, none, "A", none⟩],
        convParticipants := [⟨7, "A", Role.owner, 0, false, none⟩,
          ⟨7, "B", Role.member, 0, false, none⟩, ⟨7, "C", Role.member, 0, false, none⟩],
        nextId := 8 } : DB).users, u.id = p.userId) ∧
    (((getParticipantRows ({ emptyDB with
        users := [⟨"A", "a", UserStatus.online, none⟩, ⟨"B", "b", UserStatus.online, none⟩,
          ⟨"C", "c", UserStatus.online, none⟩],
        conversations := [⟨7, ConvType.group, none, none, "A", none⟩],
        convParticipants := [⟨7, "A", Role.owner, 0, false, none⟩,
          ⟨7, "B", Role.member, 0, false, none⟩, ⟨7, "C", Role.member, 0, false, none⟩],
        nextId := 8 } : DB) 7).map fun p => p.userId).Nodup) ∧
    (((handleTyping (some "A") (some 7) true 5
        ⟨{ emptyDB with
        users := [⟨"A", "a", UserStatus.online, none⟩, ⟨"B", "b", UserStatus.online, none⟩,
          ⟨"C", "c", UserStatus.online, none⟩],
        conversations := [⟨7, ConvType.group, none, none, "A", none⟩],
        convParticipants := [⟨7, "A", Role.owner, 0, false, none⟩,
          ⟨7, "B", Role.member, 0, false, none⟩, ⟨7, "C", Role.member, 0, false, none⟩],
        nextId := 8 }, [("A", ⟨1, true⟩), ("B", ⟨2, true⟩), ("C", ⟨3, false⟩)]⟩).2.map Prod.fst).Nodup) :=
  ⟨by decide, by decide,
    (typing_broadcast_exact ⟨{ emptyDB with
        users := [⟨"A", "a", UserStatus.online, none⟩, ⟨"B", "b", UserStatus.online, none⟩,
          ⟨"C", "c", UserStatus.online, none⟩],
        conversations := [⟨7, ConvType.group, none, none, "A", none⟩],
        convParticipants := [⟨7, "A", Role.owner, 0, false, none⟩,
          ⟨7, "B", Role.member, 0, false, none⟩, ⟨7, "C", Role.member, 0, false, none⟩],
        nextId := 8 }, [("A", ⟨1, true⟩), ("B", ⟨2, true⟩), ("C", ⟨3, false⟩)]⟩ "A" 7 true 5
      (by decide) (by decide)).2.2⟩

/-! ### C9: direct-conversation idempotence -/

theorem findSome?_eq_none_iff {α β : Type} {l : List α} {f : α → Option β} :
    l.findSome? f = none ↔ ∀ x ∈ l, f x = none := by
  induction l with
  | nil => simp
  | cons a rest ih =>
      rw [List.findSome?_cons]
      cases hfa : f a with
      | some b => simp [hfa]
      | none => simp [hfa, ih]

theorem findSome?_append_none {α β : Type} (l₁ l₂ : List α) (f : α → Option β)
    (h : ∀ x ∈ l₁, f x = none) : (l₁ ++ l₂).findSome? f = l₂.findSome? f := by
  induction l₁ with
  | nil => rfl
  | cons a rest ih =>
      rw [List.cons_append, List.findSome?_cons, h a (List.mem_cons_self a rest)]
      exact ih fun x hx => h x (List.mem_cons_of_mem a hx)

theorem find?_append_singleton_neg {α : Type} (l : List α) (a : α) (p : α → Bool)
    (h : ¬ p a) : (l ++ [a]).find? p = l.find? p := by
  induction l with
  | nil => rw [List.nil_append, List.find?_cons_of_neg _ h]
  | cons x rest ih =>
      by_cases hx : p x
      · rw [List.cons_append, List.find?_cons_of_pos _ hx, List.find?_cons_of_pos _ hx]
      · rw [List.cons_append, List.find?_cons_of_neg _ hx, List.find?_cons_of_neg _ hx, ih]

theorem find?_append_singleton_of_none {α : Type} (l : List α) (a : α) (p : α → Bool)
    (hl : ∀ x ∈ l, ¬ p x) (ha : p a) : (l ++ [a]).find? p = some a := by
  induction l with
  | nil => rw [List.nil_append, List.find?_cons_of_pos _ ha]
  | cons x rest ih =>
      rw [List.cons_append, List.find?_cons_of_neg _ (hl x (List.mem_cons_self x rest))]
      exact ih fun y hy => hl y (List.mem_cons_of_mem x hy)

theorem createConversation_direct (db : DB) (nm ds : Option String) (A B : String)
    (t : Nat) (hBA : ¬ B = A) :
    createConversation db ⟨ConvType.direct, nm, ds⟩ [B] A t
      = (⟨db.nextId, ConvType.direct, nm, ds, A, some t⟩,
         { db with
            conversations := db.conversations ++
              [⟨db.nextId, ConvType.direct, nm, ds, A, some t⟩],
            convParticipants := db.convParticipants ++
              [⟨db.nextId, A, Role.member, t, false, none⟩,
               ⟨db.nextId, B, Role.member, t, false, none⟩],
            nextId := db.nextId + 1 }) := by
  unfold createConversation addParticipant
  simp [hBA]

theorem postConversations_direct_create (st : ServerState) (A B : String)
    (nm ds : Option String) (t : Nat) (hBA : ¬ B = A)
    (hnone : findDirectConversation st.db A B = none) :
    postConversations st A ConvType.direct nm ds [B] t
      = (st.db.nextId,
         ⟨{ st.db with
            conversations := st.db.conversations ++
              [⟨st.db.nextId, ConvType.direct, nm, ds, A, some t⟩],
            convParticipants := st.db.convParticipants ++
              [⟨st.db.nextId, A, Role.member, t, false, none⟩,
               ⟨st.db.nextId, B, Role.member, t, false, none⟩],
            nextId := st.db.nextId + 1 }, st.clients⟩,
         broadcastToUsers st.clients [B] (OutEvent.newConversation st.db.nextId)) := by
  unfold postConversations
  rw [if_pos (⟨rfl, rfl⟩ : ConvType.direct = ConvType.direct ∧ ([B] : List String).length = 1)]
  rw [show ([B] : List String).headI = B from rfl, hnone]
  rw [createConversation_direct st.db nm ds A B t hBA]

theorem postConversations_direct_found (st : ServerState) (u other : String)
    (nm ds : Option String) (t : Nat) (conv : Conversation)
    (hfind : findDirectConversation st.db u other = some conv) :
    postConversations st u ConvType.direct nm ds [other] t = (conv.id, st, []) := by
  unfold postConversations
  rw [if_pos (⟨rfl, rfl⟩ : ConvType.direct = ConvType.direct ∧
    ([other] : List String).length = 1)]
  rw [show ([other] : List String).headI = other from rfl, hfind]

theorem findDirect_after_create (db db2 : DB) (A B X Y : String) (nm ds : Option String)
    (t : Nat)
    (hAB : ¬ A = B)
    (hconvs : db2.conversations = db.conversations ++
      [⟨db.nextId, ConvType.direct, nm, ds, A, some t⟩])
    (hparts : db2.convParticipants = db.convParticipants ++
      [⟨db.nextId, A, Role.member, t, false, none⟩,
       ⟨db.nextId, B, Role.member, t, false, none⟩])
    (hconvFresh : ∀ c ∈ db.conversations, c.id < db.nextId)
    (hpartFresh : ∀ p ∈ db.convParticipants, p.conversationId < db.nextId)
    (hnone : findDirectConversation db A B = none)
    (hXY : (X = A ∧ Y = B) ∨ (X = B ∧ Y = A)) :
    findDirectConversation db2 X Y
      = some ⟨db.nextId, ConvType.direct, nm, ds, A, some t⟩ := by
  have hBA : ¬ B = A := fun h => hAB h.symm
  have hlt : ∀ Z i, i ∈ userConvIds db Z → i < db.nextId := by
    intro Z i hi
    unfold userConvIds at hi
    obtain ⟨p, hp, rfl⟩ := List.mem_map.mp hi
    exact hpartFresh p (List.mem_of_mem_filter hp)
  have hucA : userConvIds db2 A = userConvIds db A ++ [db.nextId] := by
    unfold userConvIds
    rw [hparts, List.filter_append, List.map_append]
    congr 1
    simp [hBA]
  have hucB : userConvIds db2 B = userConvIds db B ++ [db.nextId] := by
    unfold userConvIds
    rw [hparts, List.filter_append, List.map_append]
    congr 1
    simp [hAB]
  have hnone' : ∀ i ∈ (userConvIds db A).filter (fun j => decide (j ∈ userConvIds db B)),
      directCheck db i = none := by
    have h0 : ((userConvIds db A).filter fun j => decide (j ∈ userConvIds db B)).findSome?
        (directCheck db) = none := hnone
    exact findSome?_eq_none_iff.mp h0
  have hcheck_lt : ∀ i, i < db.nextId → directCheck db2 i = directCheck db i := by
    intro i hi
    unfold directCheck
    rw [hconvs]
    rw [find?_append_singleton_neg _ _ _ (by simp [Nat.ne_of_gt hi])]
    rw [hparts, List.filter_append]
    rw [show (([⟨db.nextId, A, Role.member, t, false, none⟩,
        ⟨db.nextId, B, Role.member, t, false, none⟩] : List ConvParticipant).filter
          fun p => decide (p.conversationId = i)) = []
      from by simp [Nat.ne_of_gt hi]]
    rw [List.append_nil]
  have hcheckN : directCheck db2 db.nextId
      = some ⟨db.nextId, ConvType.direct, nm, ds, A, some t⟩ := by
    unfold directCheck
    rw [hconvs]
    rw [find?_append_singleton_of_none _ _ _
      (fun c hc => by simp [Nat.ne_of_lt (hconvFresh c hc)]) (by simp)]
    rw [hparts, List.filter_append]
    rw [show (db.convParticipants.filter fun p => decide (p.conversationId = db.nextId)) = []
      from List.filter_eq_nil_iff.mpr fun p hp => by simp [Nat.ne_of_lt (hpartFresh p hp)]]
    simp
  have core : ∀ X' Y', userConvIds db2 X' = userConvIds db X' ++ [db.nextId] →
      userConvIds db2 Y' = userConvIds db Y' ++ [db.nextId] →
      (∀ i ∈ (userConvIds db X').filter (fun j => decide (j ∈ userConvIds db Y')),
          directCheck db i = none) →
      findDirectConversation db2 X' Y'
        = some ⟨db.nextId, ConvType.direct, nm, ds, A, some t⟩ := by
    intro X' Y' hX hY hall
    unfold findDirectConversation
    rw [hX, hY, List.filter_append]
    have hc1 : ((userConvIds db X').filter
        fun i => decide (i ∈ userConvIds db Y' ++ [db.nextId]))
        = (userConvIds db X').filter (fun i => decide (i ∈ userConvIds db Y')) := by
      apply List.filter_congr
      intro i hi
      have hne : ¬ i = db.nextId := Nat.ne_of_lt (hlt X' i hi)
      exact decide_eq_decide.mpr (by simp [List.mem_append, hne])
    have hc2 : (([db.nextId] : List Nat).filter
        fun i => decide (i ∈ userConvIds db Y' ++ [db.nextId])) = [db.nextId] := by
      simp [List.mem_append]
    rw [hc1, hc2]
    rw [findSome?_append_none _ _ _ (fun i hi => by
      rw [hcheck_lt i (hlt X' i (List.mem_of_mem_filter hi))]
      exact hall i hi)]
    rw [List.findSome?_cons, hcheckN]
  rcases hXY with ⟨rfl, rfl⟩ | ⟨rfl, rfl⟩
  · exact core X Y hucA hucB hnone'
  · refine core X Y hucB hucA ?_
    intro i hi
    have hm := List.mem_filter.mp hi
    refine hnone' i (List.mem_filter.mpr ⟨?_, ?_⟩)
    · simpa using hm.2
    · simpa using hm.1

/-- C9: creating a direct conversation between distinct users `A` and `B`
twice yields the same conversation id both times, with the pair given in
either order.  Starting from a state with no direct conversation between
them (and fresh ids), the first `POST /api/conversations` creates the
conversation with id `nextId`; afterwards `findDirectConversation` finds
it symmetrically in both argument orders, and a second creation — by `B`
naming `A`, or again by `A` naming `B` — returns that same id and leaves
the state unchanged with no broadcast, instead of inserting a new row. -/
theorem direct_conversation_idempotent (st : ServerState) (A B : String)
    (nm ds nm2 ds2 : Option String) (t1 t2 : Nat)
    (hAB : ¬ A = B)
    (hconvFresh : ∀ c ∈ st.db.conversations, c.id < st.db.nextId)
    (hpartFresh : ∀ p ∈ st.db.convParticipants, p.conversationId < st.db.nextId)
    (hnone : findDirectConversation st.db A B = none) :
    (postConversations st A ConvType.direct nm ds [B] t1).1 = st.db.nextId ∧
    findDirectConversation
        (postConversations st A ConvType.direct nm ds [B] t1).2.1.db B A
      = findDirectConversation
          (postConversations st A ConvType.direct nm ds [B] t1).2.1.db A B ∧
    postConversations (postConversations st A ConvType.direct nm ds [B] t1).2.1 B
        ConvType.direct nm2 ds2 [A] t2
      = ((postConversations st A ConvType.direct nm ds [B] t1).1,
         (postConversations st A ConvType.direct nm ds [B] t1).2.1, []) ∧
    postConversations (postConversations st A ConvType.direct nm ds [B] t1).2.1 A
        ConvType.direct nm2 ds2 [B] t2
      = ((postConversations st A ConvType.direct nm ds [B] t1).1,
         (postConversations st A ConvType.direct nm ds [B] t1).2.1, []) := by
  have hBA : ¬ B = A := fun h => hAB h.symm
  have e1 := postConversations_direct_create st A B nm ds t1 hBA hnone
  have h1 : (postConversations st A ConvType.direct nm ds [B] t1).1 = st.db.nextId := by
    rw [e1]
  have hdb1c : (postConversations st A ConvType.direct nm ds [B] t1).2.1.db.conversations
      = st.db.conversations ++ [⟨st.db.nextId, ConvType.direct, nm, ds, A, some t1⟩] := by
    rw [e1]
  have hdb1p : (postConversations st A ConvType.direct nm ds [B] t1).2.1.db.convParticipants
      = st.db.convParticipants ++
        [⟨st.db.nextId, A, Role.member, t1, false, none⟩,
         ⟨st.db.nextId, B, Role.member, t1, false, none⟩] := by
    rw [e1]
  have hfBA := findDirect_after_create st.db
    (postConversations st A ConvType.direct nm ds [B] t1).2.1.db A B B A nm ds t1
    hAB hdb1c hdb1p hconvFresh hpartFresh hnone (Or.inr ⟨rfl, rfl⟩)
  have hfAB := findDirect_after_create st.db
    (postConversations st A ConvType.direct nm ds [B] t1).2.1.db A B A B nm ds t1
    hAB hdb1c hdb1p hconvFresh hpartFresh hnone (Or.inl ⟨rfl, rfl⟩)
  refine ⟨h1, ?_, ?_, ?_⟩
  · rw [hfBA, hfAB]
  · rw [h1]
    exact postConversations_direct_found _ B A nm2 ds2 t2 _ hfBA
  · rw [h1]
    exact postConversations_direct_found _ A B nm2 ds2 t2 _ hfAB

theorem direct_conversation_idempotent_witness :
    (¬ "A" = "B") ∧
    (∀ c ∈ (⟨emptyDB, []⟩ : ServerState).db.conversations,
        c.id < (⟨emptyDB, []⟩ : ServerState).db.nextId) ∧
    (∀ p ∈ (⟨emptyDB, []⟩ : ServerState).db.convParticipants,
        p.conversationId < (⟨emptyDB, []⟩ : ServerState).db.nextId) ∧
    (findDirectConversation (⟨emptyDB, []⟩ : ServerState).db "A" "B" = none) ∧
    postConversations
        (postConversations ⟨emptyDB, []⟩ "A" ConvType.direct none none ["B"] 0).2.1 "B"
        ConvType.direct none none ["A"] 1
      = ((postConversations ⟨emptyDB, []⟩ "A" ConvType.direct none none ["B"] 0).1,
         (postConversations ⟨emptyDB, []⟩ "A" ConvType.direct none none ["B"] 0).2.1, []) :=
  ⟨by decide, by decide, by decide, by decide,
    (direct_conversation_idempotent ⟨emptyDB, []⟩ "A" "B" none none none none 0 1
      (by decide) (by decide) (by decide) (by decide)).2.2.1⟩
